import Mathlib

/-!
Verification of the budget-app core logic: a shallow embedding of the
allocation builder, ledger aggregator, transfer/collection engine, goal
progress calculator and category classifiers, together with theorems
about the properties the design document states for them.

Monetary values are embedded as rationals; `Math.round` is embedded as
`fun q => ⌊q + 1/2⌋` (round half toward positive infinity), which is its
behaviour on finite numbers.
-/

namespace BudgetApp

/-! ### Money/cents helpers (source: `money`, `clamp2`, `toCents`, `centsToNumber`) -/

/-- JavaScript `Math.round` on a finite value: round half up. -/
def jsRound (q : ℚ) : ℤ := ⌊q + 1/2⌋

/-- `function clamp2(n) { return Math.round(n * 100) / 100; }` -/
def clamp2 (q : ℚ) : ℚ := (jsRound (q * 100) : ℚ) / 100

/-- `function toCents(n) { return Math.round(n * 100); }` -/
def toCents (q : ℚ) : ℤ := jsRound (q * 100)

/-- `function centsToNumber(cents) { return Math.round(cents) / 100; }` -/
def centsToNumber (c : ℤ) : ℚ := (jsRound (c : ℚ) : ℚ) / 100

/-- `function clamp(n, min, max) { return Math.max(min, Math.min(max, n)); }` -/
def jsClamp (n lo hi : ℚ) : ℚ := max lo (min hi n)

/-- A rational is an exact number of cents. -/
def centQ (q : ℚ) : Prop := ∃ k : ℤ, q = (k : ℚ) / 100

theorem jsRound_intCast (k : ℤ) : jsRound (k : ℚ) = k := by
  unfold jsRound
  rw [Int.floor_int_add]
  norm_num

theorem jsRound_nonneg {q : ℚ} (h : 0 ≤ q) : 0 ≤ jsRound q := by
  unfold jsRound
  positivity

theorem jsRound_le (q : ℚ) : (jsRound q : ℚ) ≤ q + 1/2 := Int.floor_le _

theorem jsRound_mono {a b : ℚ} (h : a ≤ b) : jsRound a ≤ jsRound b := by
  unfold jsRound
  exact Int.floor_le_floor (by linarith)

theorem clamp2_centQ (q : ℚ) : centQ (clamp2 q) := ⟨jsRound (q * 100), rfl⟩

theorem centQ_clamp2_fix {q : ℚ} (h : centQ q) : clamp2 q = q := by
  obtain ⟨k, rfl⟩ := h
  unfold clamp2
  rw [show (k : ℚ) / 100 * 100 = (k : ℚ) by ring, jsRound_intCast]

theorem clamp2_mono {a b : ℚ} (h : a ≤ b) : clamp2 a ≤ clamp2 b := by
  unfold clamp2
  have := jsRound_mono (show a * 100 ≤ b * 100 by linarith)
  have : (jsRound (a * 100) : ℚ) ≤ (jsRound (b * 100) : ℚ) := by exact_mod_cast this
  linarith

theorem centQ_add {a b : ℚ} (ha : centQ a) (hb : centQ b) : centQ (a + b) := by
  obtain ⟨j, rfl⟩ := ha
  obtain ⟨k, rfl⟩ := hb
  exact ⟨j + k, by push_cast; ring⟩

theorem centQ_neg {a : ℚ} (ha : centQ a) : centQ (-a) := by
  obtain ⟨j, rfl⟩ := ha
  exact ⟨-j, by push_cast; ring⟩

theorem centQ_sub {a b : ℚ} (ha : centQ a) (hb : centQ b) : centQ (a - b) := by
  obtain ⟨j, rfl⟩ := ha
  obtain ⟨k, rfl⟩ := hb
  exact ⟨j - k, by push_cast; ring⟩

theorem centQ_zero : centQ 0 := ⟨0, by norm_num⟩

theorem centQ_abs {a : ℚ} (ha : centQ a) : centQ |a| := by
  rcases abs_cases a with ⟨h, _⟩ | ⟨h, _⟩
  · rwa [h]
  · rw [h]; exact centQ_neg ha

theorem centQ_max {a b : ℚ} (ha : centQ a) (hb : centQ b) : centQ (max a b) := by
  rcases max_cases a b with ⟨h, _⟩ | ⟨h, _⟩ <;> rw [h] <;> assumption

theorem centQ_sum {l : List ℚ} (h : ∀ q ∈ l, centQ q) : centQ l.sum := by
  induction l with
  | nil => exact centQ_zero
  | cons a t ih =>
      simp only [List.sum_cons]
      exact centQ_add (h a (by simp)) (ih fun q hq => h q (by simp [hq]))

/-! ### Allocation builder (source: `ALLOCATIONS`, `BUCKETS`,
`buildBudgetInsertsExactTotal`) -/

/-- The fixed allocation table: save 15%, wants 15%, emergency 10%,
student loans 25%, expenses 30% (leftover cents added to expenses). -/
def ALLOCATIONS : List (String × ℚ) :=
  [("save", 15/100), ("wants", 15/100), ("emergency", 10/100),
   ("student loans", 25/100), ("expenses", 30/100)]

/-- `const BUCKETS = ALLOCATIONS.map((a) => a.category);` -/
def BUCKETS : List String := ALLOCATIONS.map Prod.fst

/-- One row of the `budgets` insert built for a week. -/
structure BudgetInsert where
  user_id : String
  week_start : String
  category : String
  amount : ℚ
deriving DecidableEq, Repr

/-- `buildBudgetInsertsExactTotal`: build budgets in cents so the total
equals income exactly; round each bucket, then add leftover cents to
"expenses".  The `Map` keyed by bucket is embedded as an association
list in insertion order (the allocation categories are distinct). -/
def buildBudgetInsertsExactTotal (userId weekStart : String) (income : ℚ) :
    List BudgetInsert :=
  let incomeCents := toCents income
  let m0 : List (String × ℤ) :=
    ALLOCATIONS.map fun a => (a.1, jsRound ((incomeCents : ℚ) * a.2))
  let sumCents := (m0.map Prod.snd).sum
  let leftover := incomeCents - sumCents
  let m := m0.map fun p => if p.1 = "expenses" then (p.1, p.2 + leftover) else p
  BUCKETS.map fun bucket =>
    { user_id := userId
      week_start := weekStart
      category := bucket
      amount := centsToNumber ((((m.find? fun p => p.1 = bucket).map Prod.snd).getD 0)) }

theorem toCents_cents (C : ℤ) : toCents ((C : ℚ) / 100) = C := by
  unfold toCents
  rw [show (C : ℚ) / 100 * 100 = (C : ℚ) by ring, jsRound_intCast]

/-- **C1.** For every income `I > 0`, `buildBudgetInsertsExactTotal` returns
exactly 5 (bucket, amount) pairs — save, wants, emergency, student loans,
expenses — whose amounts sum exactly to the income rounded to 2 decimals,
with no drift, for every income (terminating percentage split or not). -/
theorem buildBudgetInsertsExactTotal_five_sum_exact (u w : String) (I : ℚ)
    (_hI : 0 < I) :
    (buildBudgetInsertsExactTotal u w I).length = 5
    ∧ (buildBudgetInsertsExactTotal u w I).map BudgetInsert.category
        = ["save", "wants", "emergency", "student loans", "expenses"]
    ∧ ((buildBudgetInsertsExactTotal u w I).map BudgetInsert.amount).sum
        = clamp2 I := by
  refine ⟨?_, ?_, ?_⟩
  · simp [buildBudgetInsertsExactTotal, BUCKETS, ALLOCATIONS]
  · simp [buildBudgetInsertsExactTotal, BUCKETS, ALLOCATIONS]
  · simp [buildBudgetInsertsExactTotal, ALLOCATIONS, BUCKETS, centsToNumber,
      clamp2, toCents, List.find?, jsRound_intCast]
    ring

/-- Witness for C1 at the non-terminating split income 33.33. -/
theorem buildBudgetInsertsExactTotal_five_sum_exact_witness :
    (buildBudgetInsertsExactTotal "u" "2024-01-01" (3333/100)).length = 5
    ∧ (buildBudgetInsertsExactTotal "u" "2024-01-01" (3333/100)).map
        BudgetInsert.category
        = ["save", "wants", "emergency", "student loans", "expenses"]
    ∧ ((buildBudgetInsertsExactTotal "u" "2024-01-01" (3333/100)).map
        BudgetInsert.amount).sum = clamp2 (3333/100) :=
  buildBudgetInsertsExactTotal_five_sum_exact "u" "2024-01-01" (3333/100)
    (by norm_num)

/-- The four rounded allocations never exceed the whole income in cents:
what the "expenses" bucket absorbs stays non-negative. -/
theorem leftover_expenses_nonneg (C : ℤ) (hC : 0 < C) :
    0 ≤ C - (jsRound ((C : ℚ) * (15/100)) + jsRound ((C : ℚ) * (15/100))
        + jsRound ((C : ℚ) * (10/100)) + jsRound ((C : ℚ) * (25/100))) := by
  rcases lt_or_le C 6 with h6 | h6
  · interval_cases C <;> norm_num [jsRound]
  · have b1 := jsRound_le ((C : ℚ) * (15/100))
    have b3 := jsRound_le ((C : ℚ) * (10/100))
    have b4 := jsRound_le ((C : ℚ) * (25/100))
    have h6' : (6 : ℚ) ≤ (C : ℚ) := by exact_mod_cast h6
    have key : (0 : ℚ) ≤ (C : ℚ) - ((jsRound ((C : ℚ) * (15/100)) : ℚ)
        + (jsRound ((C : ℚ) * (15/100)) : ℚ) + (jsRound ((C : ℚ) * (10/100)) : ℚ)
        + (jsRound ((C : ℚ) * (25/100)) : ℚ)) := by linarith
    have := key
    push_cast at this ⊢
    exact_mod_cast this

/-- **C10.** For every positive cent-quantized income, each of the 5
allocation amounts is non-negative; in particular the residual "expenses"
amount, which absorbs the rounding leftover, never goes below zero. -/
theorem buildBudgetInsertsExactTotal_nonneg (u w : String) (C : ℤ)
    (hC : 0 < C) :
    ∀ b ∈ buildBudgetInsertsExactTotal u w ((C : ℚ) / 100), 0 ≤ b.amount := by
  intro b hb
  have hC' : (0 : ℚ) ≤ (C : ℚ) := by exact_mod_cast hC.le
  simp [buildBudgetInsertsExactTotal, ALLOCATIONS, BUCKETS, toCents_cents,
    List.find?, centsToNumber, jsRound_intCast] at hb
  have hkey := leftover_expenses_nonneg C hC
  rcases hb with rfl | rfl | rfl | rfl | rfl <;>
    (dsimp only; refine div_nonneg ?_ (by norm_num); norm_cast)
  · exact jsRound_nonneg (by positivity)
  · exact jsRound_nonneg (by positivity)
  · exact jsRound_nonneg (by positivity)
  · exact jsRound_nonneg (by positivity)
  · have h5 : 0 ≤ jsRound ((C : ℚ) * (30/100)) := jsRound_nonneg (by positivity)
    omega

/-- Witness for C10 at one cent of income: the residual "expenses" row. -/
theorem buildBudgetInsertsExactTotal_nonneg_witness :
    (0 : ℤ) < 1
    ∧ 0 ≤ (BudgetInsert.mk "u" "2024-01-01" "expenses" (1/100)).amount :=
  ⟨by norm_num,
   buildBudgetInsertsExactTotal_nonneg "u" "2024-01-01" 1 (by norm_num)
     (BudgetInsert.mk "u" "2024-01-01" "expenses" (1/100))
     (by
       have h1 : toCents (((1 : ℤ) : ℚ) / 100) = 1 := by
         norm_num [toCents, jsRound]
       simp only [buildBudgetInsertsExactTotal, h1]
       simp [ALLOCATIONS, BUCKETS, centsToNumber, List.find?]
       norm_num [jsRound])⟩

/-! ### Category/bucket classifier (source: `TX_BUCKET_DELIM`,
`makeStoredCategory`, `splitStoredCategory`) -/

/-- Index of the first occurrence of the two-character delimiter `::` in a
character list (JS `String.prototype.indexOf`, `none` standing for `-1`). -/
def indexOfDelim : List Char → Option ℕ
  | ':' :: ':' :: _ => some 0
  | _ :: rest => (indexOfDelim rest).map (· + 1)
  | [] => none

/-- Drop leading whitespace characters. -/
def dropLeadingWs : List Char → List Char
  | [] => []
  | c :: rest => if c.isWhitespace then dropLeadingWs rest else c :: rest

/-- JS `String.prototype.trim`: strip whitespace from both ends. -/
def jsTrim (s : String) : String :=
  String.mk ((dropLeadingWs (dropLeadingWs s.toList).reverse).reverse)

/-- JS `String.prototype.toLowerCase` (ASCII case mapping). -/
def jsToLower (s : String) : String := String.mk (s.toList.map Char.toLower)

/-- JS `String.prototype.startsWith`. -/
def jsStartsWith (s pre : String) : Bool := pre.toList.isPrefixOf s.toList

/-- Whether `sub` occurs as a contiguous run inside `l`. -/
def hasSub (sub : List Char) : List Char → Bool
  | [] => sub.isEmpty
  | c :: rest => sub.isPrefixOf (c :: rest) || hasSub sub rest

/-- JS `String.prototype.includes`. -/
def jsIncludes (s sub : String) : Bool := hasSub sub.toList s.toList

/-- `splitStoredCategory(category)`: when the string contains `::` at a
positive index, the prefix (trimmed) names a known bucket, and the trimmed
remainder is non-empty, return the locked bucket and the raw label; else
return no bucket and the whole string. -/
def splitStoredCategory (category : String) : Option String × String :=
  match indexOfDelim category.toList with
  | some idx =>
    if 0 < idx then
      let b := jsTrim (String.mk (category.toList.take idx))
      let raw := jsTrim (String.mk (category.toList.drop (idx + 2)))
      if b ∈ BUCKETS ∧ raw ≠ "" then (some b, raw) else (none, category)
    else (none, category)
  | none => (none, category)

/-! ### Ledger aggregator (source: component state and the `rows`,
`mapDict`, `availableFromBucket` derivations) -/

structure Transaction where
  id : String
  user_id : String
  date : String
  amount : ℚ
  category : String
  description : Option String
  created_at : String

structure Budget where
  id : String
  user_id : String
  week_start : String
  category : String
  amount : ℚ
  created_at : String

structure CategoryMapRow where
  id : String
  user_id : String
  raw_category : String
  bucket : String
  created_at : String

structure BucketTransfer where
  id : String
  user_id : String
  week_start : String
  from_bucket : String
  to_bucket : String
  amount : ℚ
  created_at : String

structure Row where
  category : String
  budgeted : ℚ
  spent : ℚ
  variance : ℚ

/-- `mapDict`: the `Map` from raw category to bucket built over the
`category_map` rows; a later row for the same raw category overwrites an
earlier one. -/
def mapDict (rows : List CategoryMapRow) : String → Option String :=
  rows.foldl
    (fun d row => fun k => if k = row.raw_category then some row.bucket else d k)
    (fun _ => none)

/-- The bucket a transaction is aggregated under:
`parsed.bucket ?? mapDict.get(t.category)`. -/
def txBucket (dict : String → Option String) (t : Transaction) : Option String :=
  match (splitStoredCategory t.category).1 with
  | some b => some b
  | none => dict t.category

/-- `baseBudgetByBucket`: sum of the week's budget rows per category. -/
def baseBudgetByBucket (budgets : List Budget) : String → ℚ :=
  budgets.foldl
    (fun m b => fun k => if k = b.category then m b.category + b.amount else m k)
    (fun _ => 0)

/-- `spentByBucket`: per bucket, the absolute amounts of the bucket's
strictly negative transactions; transactions that resolve to no bucket are
skipped. -/
def spentByBucket (dict : String → Option String) (txs : List Transaction) :
    String → ℚ :=
  txs.foldl
    (fun m t =>
      if 0 ≤ t.amount then m
      else
        match txBucket dict t with
        | none => m
        | some bucket => fun k => if k = bucket then m bucket + |t.amount| else m k)
    (fun _ => 0)

/-- `deltaByBucket`: net transfer delta per bucket (`- amount` at the
source, then `+ amount` at the destination). -/
def deltaByBucket (transfers : List BucketTransfer) : String → ℚ :=
  transfers.foldl
    (fun m tr =>
      let m1 : String → ℚ :=
        fun k => if k = tr.from_bucket then m tr.from_bucket - tr.amount else m k
      fun k => if k = tr.to_bucket then m1 tr.to_bucket + tr.amount else m1 k)
    (fun _ => 0)

/-- The `rows` derivation: one row per fixed bucket with budgeted after
transfers, spent, and variance. -/
def rows (budgets : List Budget) (txs : List Transaction)
    (dict : String → Option String) (transfers : List BucketTransfer) :
    List Row :=
  BUCKETS.map fun bucket =>
    let base := baseBudgetByBucket budgets bucket
    let delta := deltaByBucket transfers bucket
    let budgeted := clamp2 (base + delta)
    let spent := clamp2 (spentByBucket dict txs bucket)
    { category := bucket, budgeted := budgeted, spent := spent,
      variance := clamp2 (budgeted - spent) }

theorem baseBudgetByBucket_eq (budgets : List Budget) (k : String) :
    baseBudgetByBucket budgets k
      = ((budgets.filter fun b => b.category = k).map Budget.amount).sum := by
  unfold baseBudgetByBucket
  suffices h : ∀ (l : List Budget) (m : String → ℚ),
      (l.foldl (fun m b => fun j =>
          if j = b.category then m b.category + b.amount else m j) m) k
        = m k + ((l.filter fun b => b.category = k).map Budget.amount).sum by
    simpa using h budgets (fun _ => 0)
  intro l
  induction l with
  | nil => intro m; simp
  | cons b t ih =>
      intro m
      rw [List.foldl_cons, ih]
      by_cases hk : b.category = k
      · subst hk
        simp [List.filter_cons]
        ring
      · have hk' : ¬(k = b.category) := fun h => hk h.symm
        simp [List.filter_cons, hk, hk']

theorem deltaByBucket_eq (transfers : List BucketTransfer) (k : String) :
    deltaByBucket transfers k
      = ((transfers.filter fun tr => tr.to_bucket = k).map BucketTransfer.amount).sum
        - ((transfers.filter fun tr => tr.from_bucket = k).map
            BucketTransfer.amount).sum := by
  unfold deltaByBucket
  suffices h : ∀ (l : List BucketTransfer) (m : String → ℚ),
      (l.foldl (fun m tr =>
          let m1 : String → ℚ := fun j =>
            if j = tr.from_bucket then m tr.from_bucket - tr.amount else m j
          fun j => if j = tr.to_bucket then m1 tr.to_bucket + tr.amount else m1 j) m) k
        = m k + (((l.filter fun tr => tr.to_bucket = k).map BucketTransfer.amount).sum
            - ((l.filter fun tr => tr.from_bucket = k).map BucketTransfer.amount).sum) by
    simpa using h transfers (fun _ => 0)
  intro l
  induction l with
  | nil => intro m; simp
  | cons tr t ih =>
      intro m
      rw [List.foldl_cons, ih]
      simp only [List.filter_cons, List.map_cons, List.sum_cons]
      by_cases hto : k = tr.to_bucket <;> by_cases hfrom : k = tr.from_bucket
      · subst hto
        simp [hfrom]
      · subst hto
        simp [hfrom, Ne.symm hfrom]
        ring
      · subst hfrom
        simp [hto, Ne.symm hto]
        ring
      · simp [hto, hfrom, Ne.symm hto, Ne.symm hfrom]

theorem spentByBucket_eq (dict : String → Option String)
    (txs : List Transaction) (k : String) :
    spentByBucket dict txs k
      = ((txs.filter fun t => t.amount < 0 ∧ txBucket dict t = some k).map
          fun t => |t.amount|).sum := by
  unfold spentByBucket
  suffices h : ∀ (l : List Transaction) (m : String → ℚ),
      (l.foldl (fun m t =>
          if 0 ≤ t.amount then m
          else
            match txBucket dict t with
            | none => m
            | some bucket =>
                fun j => if j = bucket then m bucket + |t.amount| else m j) m) k
        = m k + ((l.filter fun t => t.amount < 0 ∧ txBucket dict t = some k).map
            fun t => |t.amount|).sum by
    simpa using h txs (fun _ => 0)
  intro l
  induction l with
  | nil => intro m; simp
  | cons t rest ih =>
      intro m
      rw [List.foldl_cons]
      simp only [List.filter_cons]
      by_cases hneg : 0 ≤ t.amount
      · have hnot : ¬(t.amount < 0 ∧ txBucket dict t = some k) :=
          fun h => absurd hneg (not_le.mpr h.1)
        rw [if_pos hneg, ih]
        simp [hnot]
      · have hlt : t.amount < 0 := lt_of_not_le hneg
        rw [if_neg hneg]
        rcases hb : txBucket dict t with _ | bucket
        · rw [ih]
          simp
        · rw [ih]
          by_cases hk : k = bucket
          · subst hk
            simp [hlt]
            ring
          · simp [hlt, hk, Ne.symm hk]

/-- **C2.** For every week and bucket, after any sequence of transfers the
aggregator's budgeted value equals the sum of the week's budget rows for
that bucket plus the inbound transfer amounts minus the outbound transfer
amounts, and the variance equals budgeted minus spent rounded to 2
decimals.  Budget and transfer amounts are cent-quantized, as produced by
the allocation builder and the transfer engine. -/
theorem rows_budgeted_eq_base_plus_transfers (budgets : List Budget)
    (txs : List Transaction) (dict : String → Option String)
    (transfers : List BucketTransfer)
    (hb : ∀ b ∈ budgets, centQ b.amount)
    (htr : ∀ tr ∈ transfers, centQ tr.amount) :
    ∀ r ∈ rows budgets txs dict transfers,
      r.budgeted
          = ((budgets.filter fun b => b.category = r.category).map
              Budget.amount).sum
            + ((transfers.filter fun tr => tr.to_bucket = r.category).map
                BucketTransfer.amount).sum
            - ((transfers.filter fun tr => tr.from_bucket = r.category).map
                BucketTransfer.amount).sum
      ∧ r.variance = clamp2 (r.budgeted - r.spent) := by
  intro r hr
  simp only [rows, List.mem_map] at hr
  obtain ⟨bucket, _hbucket, rfl⟩ := hr
  have hbase : centQ (baseBudgetByBucket budgets bucket) := by
    rw [baseBudgetByBucket_eq]
    refine centQ_sum ?_
    intro q hq
    simp only [List.mem_map] at hq
    obtain ⟨b, hbmem, rfl⟩ := hq
    exact hb b (List.mem_of_mem_filter hbmem)
  have hto : centQ ((transfers.filter fun tr => tr.to_bucket = bucket).map
      BucketTransfer.amount).sum := by
    refine centQ_sum ?_
    intro q hq
    simp only [List.mem_map] at hq
    obtain ⟨tr, htrmem, rfl⟩ := hq
    exact htr tr (List.mem_of_mem_filter htrmem)
  have hfrom : centQ ((transfers.filter fun tr => tr.from_bucket = bucket).map
      BucketTransfer.amount).sum := by
    refine centQ_sum ?_
    intro q hq
    simp only [List.mem_map] at hq
    obtain ⟨tr, htrmem, rfl⟩ := hq
    exact htr tr (List.mem_of_mem_filter htrmem)
  constructor
  · show clamp2 (baseBudgetByBucket budgets bucket + deltaByBucket transfers bucket)
        = _
    rw [deltaByBucket_eq, baseBudgetByBucket_eq, ← add_sub_assoc]
    exact centQ_clamp2_fix
      (centQ_sub (centQ_add (baseBudgetByBucket_eq budgets bucket ▸ hbase) hto) hfrom)
  · rfl

/-- Witness for C2: one budget row of 10 on "save" and one transfer of 3
from "save" to "expenses" give the "save" row budgeted 7 = 10 + 0 - 3. -/
theorem rows_budgeted_eq_base_plus_transfers_witness :
    (Row.mk "save" 7 0 7).budgeted
        = ((([Budget.mk "b1" "u" "2024-01-01" "save" 10 "t0"]).filter
            fun b => b.category = (Row.mk "save" 7 0 7).category).map
              Budget.amount).sum
          + ((([BucketTransfer.mk "tr1" "u" "2024-01-01" "save" "expenses" 3 "t1"]).filter
              fun tr => tr.to_bucket = (Row.mk "save" 7 0 7).category).map
                BucketTransfer.amount).sum
          - ((([BucketTransfer.mk "tr1" "u" "2024-01-01" "save" "expenses" 3 "t1"]).filter
              fun tr => tr.from_bucket = (Row.mk "save" 7 0 7).category).map
                BucketTransfer.amount).sum
    ∧ (Row.mk "save" 7 0 7).variance
        = clamp2 ((Row.mk "save" 7 0 7).budgeted - (Row.mk "save" 7 0 7).spent) :=
  rows_budgeted_eq_base_plus_transfers
    [Budget.mk "b1" "u" "2024-01-01" "save" 10 "t0"] [] (mapDict [])
    [BucketTransfer.mk "tr1" "u" "2024-01-01" "save" "expenses" 3 "t1"]
    (by
      intro b hb
      rw [List.mem_singleton] at hb
      subst hb
      exact ⟨1000, by norm_num⟩)
    (by
      intro tr htr
      rw [List.mem_singleton] at htr
      subst htr
      exact ⟨300, by norm_num⟩)
    (Row.mk "save" 7 0 7)
    (by
      simp [rows, BUCKETS, ALLOCATIONS, baseBudgetByBucket, deltaByBucket,
        spentByBucket, clamp2, jsRound]
      norm_num [Int.floor_eq_iff])

/-- **C5 counterexample.** Transaction amounts are stored unrounded
(`Number(txAmount)` is only checked for `> 0` / `!isNaN`), so an expense
of 1.005 is storable as amount −1.005.  There the aggregator computes
`spent = clamp2(1.005) = 1.01`, which differs from the sum of absolute
negative amounts, 1.005: spent does not always equal that sum exactly. -/
theorem rows_spent_rounds_noncent_input :
    (Row.mk "expenses" 0 (101/100) (-(101/100)))
        ∈ rows []
            [Transaction.mk "t1" "u" "2024-01-02" (-(1005/1000)) "expenses::x"
              none "c1"]
            (mapDict []) []
    ∧ (([Transaction.mk "t1" "u" "2024-01-02" (-(1005/1000)) "expenses::x"
          none "c1"].filter
        fun t => t.amount < 0 ∧ txBucket (mapDict []) t = some "expenses").map
          fun t => |t.amount|).sum = 1005/1000
    ∧ (101 : ℚ)/100 ≠ 1005/1000 := by
  have h1 : txBucket (mapDict [])
      (Transaction.mk "t1" "u" "2024-01-02" (-(1005/1000)) "expenses::x"
        none "c1")
        = some "expenses" := by decide
  have hn1 : ¬(0 : ℚ) ≤ -(1005/1000) := by norm_num
  have hlt : (-(1005/1000) : ℚ) < 0 := by norm_num
  refine ⟨?_, ?_, by norm_num⟩
  · simp [rows, BUCKETS, ALLOCATIONS, baseBudgetByBucket, deltaByBucket,
      spentByBucket, h1, hn1, clamp2]
    norm_num [jsRound, abs_of_pos]
  · simp [h1, hlt]
    norm_num

/-- **C5 (amended).** For every week and bucket, spent equals the sum of
the absolute values of that bucket's strictly negative transactions
rounded to 2 decimals — so non-negative transactions contribute nothing
and transactions that resolve to no bucket (no locked prefix and no
category mapping for the raw text) contribute to no bucket's spent — and
it equals that sum exactly whenever the transaction amounts are
cent-quantized. -/
theorem rows_spent_clamp2_negative_sum (budgets : List Budget)
    (txs : List Transaction) (dict : String → Option String)
    (transfers : List BucketTransfer) :
    ∀ r ∈ rows budgets txs dict transfers,
      r.spent = clamp2 ((txs.filter fun t =>
          t.amount < 0 ∧ txBucket dict t = some r.category).map
            fun t => |t.amount|).sum
      ∧ ((∀ t ∈ txs, centQ t.amount) →
          r.spent = ((txs.filter fun t =>
              t.amount < 0 ∧ txBucket dict t = some r.category).map
                fun t => |t.amount|).sum) := by
  intro r hr
  simp only [rows, List.mem_map] at hr
  obtain ⟨bucket, _hbucket, rfl⟩ := hr
  have hmain : clamp2 (spentByBucket dict txs bucket)
      = clamp2 ((txs.filter fun t =>
          t.amount < 0 ∧ txBucket dict t = some bucket).map
            fun t => |t.amount|).sum := by
    rw [spentByBucket_eq]
  refine ⟨hmain, ?_⟩
  intro htx
  show clamp2 (spentByBucket dict txs bucket) = _
  rw [spentByBucket_eq]
  refine centQ_clamp2_fix (centQ_sum ?_)
  intro q hq
  simp only [List.mem_map] at hq
  obtain ⟨t, htmem, rfl⟩ := hq
  exact centQ_abs (htx t (List.mem_of_mem_filter htmem))

/-- Witness for the amended C5: a −5 locked "expenses" transaction, a +7
income transaction and an unmapped −4 transaction yield spent 5 on
"expenses", both as the rounded and as the exact sum. -/
theorem rows_spent_clamp2_negative_sum_witness :
    (Row.mk "expenses" 0 5 (-5)).spent
        = clamp2 (([Transaction.mk "t1" "u" "2024-01-02" (-5) "expenses::x" none "c1",
             Transaction.mk "t2" "u" "2024-01-03" 7 "expenses::y" none "c2",
             Transaction.mk "t3" "u" "2024-01-04" (-4) "mystery" none "c3"].filter
            fun t => t.amount < 0
              ∧ txBucket (mapDict []) t = some (Row.mk "expenses" 0 5 (-5)).category).map
              fun t => |t.amount|).sum
    ∧ (Row.mk "expenses" 0 5 (-5)).spent
        = (([Transaction.mk "t1" "u" "2024-01-02" (-5) "expenses::x" none "c1",
             Transaction.mk "t2" "u" "2024-01-03" 7 "expenses::y" none "c2",
             Transaction.mk "t3" "u" "2024-01-04" (-4) "mystery" none "c3"].filter
            fun t => t.amount < 0
              ∧ txBucket (mapDict []) t = some (Row.mk "expenses" 0 5 (-5)).category).map
              fun t => |t.amount|).sum := by
  have hmem : (Row.mk "expenses" 0 5 (-5)) ∈ rows []
      [Transaction.mk "t1" "u" "2024-01-02" (-5) "expenses::x" none "c1",
       Transaction.mk "t2" "u" "2024-01-03" 7 "expenses::y" none "c2",
       Transaction.mk "t3" "u" "2024-01-04" (-4) "mystery" none "c3"]
      (mapDict []) [] := by
    have h1 : txBucket (mapDict [])
        (Transaction.mk "t1" "u" "2024-01-02" (-5) "expenses::x" none "c1")
          = some "expenses" := by decide
    have h2 : txBucket (mapDict [])
        (Transaction.mk "t2" "u" "2024-01-03" 7 "expenses::y" none "c2")
          = some "expenses" := by decide
    have h3 : txBucket (mapDict [])
        (Transaction.mk "t3" "u" "2024-01-04" (-4) "mystery" none "c3")
          = none := by decide
    have hn1 : ¬(0 : ℚ) ≤ -5 := by norm_num
    have hn2 : (0 : ℚ) ≤ 7 := by norm_num
    have hn3 : ¬(0 : ℚ) ≤ -4 := by norm_num
    simp [rows, BUCKETS, ALLOCATIONS, baseBudgetByBucket, deltaByBucket,
      spentByBucket, h1, h2, h3, hn1, hn2, hn3, clamp2]
    norm_num [jsRound]
  have h := rows_spent_clamp2_negative_sum []
    [Transaction.mk "t1" "u" "2024-01-02" (-5) "expenses::x" none "c1",
     Transaction.mk "t2" "u" "2024-01-03" 7 "expenses::y" none "c2",
     Transaction.mk "t3" "u" "2024-01-04" (-4) "mystery" none "c3"]
    (mapDict []) [] (Row.mk "expenses" 0 5 (-5)) hmem
  refine ⟨h.1, h.2 ?_⟩
  intro t ht
  fin_cases ht
  · exact ⟨-500, by norm_num⟩
  · exact ⟨700, by norm_num⟩
  · exact ⟨-400, by norm_num⟩

/-! ### Transfer engine (source: `availableFromBucket`, `coverOverspend`) -/

/-- `availableFromBucket(bucket)`: 0 when the bucket has no row or has been
collected this week, else `max(0, clamp2(variance))`. -/
def availableFromBucket (rs : List Row) (collected : String → Bool)
    (bucket : String) : ℚ :=
  match rs.find? fun x => x.category = bucket with
  | none => 0
  | some r => if collected bucket then 0 else max 0 (clamp2 r.variance)

/-- The `bucket_transfers` row a successful cover-overspend inserts. -/
structure TransferInsert where
  from_bucket : String
  to_bucket : String
  amount : ℚ
deriving DecidableEq, Repr

/-- `coverOverspend(targetBucket)`: the pure decision logic.  `fromBucket`
is the chosen source (`coverSource`), `want` the parsed requested amount
(`none` for an empty input, which defaults to `min(deficit, available)`).
Auth, week-selection and persistence are outside the embedding; the
`Number.isFinite` test cannot fail on a rational. -/
def coverOverspend (rs : List Row) (collected : String → Bool)
    (targetBucket fromBucket : String) (want : Option ℚ) :
    Option TransferInsert :=
  match rs.find? fun r => r.category = targetBucket with
  | none => none
  | some targetRow =>
    if 0 ≤ targetRow.variance then none
    else
      let remainingOver := clamp2 |targetRow.variance|
      let fromB := jsTrim fromBucket
      if fromB = "" then none
      else if fromB = targetBucket then none
      else
        let available := availableFromBucket rs collected fromB
        if available ≤ 0 then none
        else
          let amt0 := match want with
            | some a => a
            | none => min remainingOver available
          if amt0 ≤ 0 then none
          else some ⟨fromB, targetBucket, clamp2 (min amt0 (min remainingOver available))⟩

/-- The clamped amount coverOverspend records. -/
theorem coverOverspend_amount_le (rs : List Row) (collected : String → Bool)
    (target fromBucket : String) (want : Option ℚ) (t : TransferInsert)
    (h : coverOverspend rs collected target fromBucket want = some t) :
    (∀ r, (rs.find? fun x => x.category = target) = some r →
        t.amount ≤ clamp2 |r.variance|)
    ∧ t.amount ≤ availableFromBucket rs collected t.from_bucket
    ∧ (∀ w, want = some w → centQ w → t.amount ≤ w) := by
  have havailQ : ∀ b, centQ (availableFromBucket rs collected b) := by
    intro b
    unfold availableFromBucket
    split
    · exact centQ_zero
    · split
      · exact centQ_zero
      · exact centQ_max centQ_zero (clamp2_centQ _)
  simp only [coverOverspend] at h
  split at h
  · exact Option.noConfusion h
  next targetRow hfind =>
    split at h
    · exact Option.noConfusion h
    next hneg =>
      split at h
      · exact Option.noConfusion h
      next hempty =>
        split at h
        · exact Option.noConfusion h
        next hsame =>
          split at h
          · exact Option.noConfusion h
          next havail =>
            split at h
            · exact Option.noConfusion h
            next hpos =>
              obtain rfl := Option.some.inj h
              refine ⟨?_, ?_, ?_⟩
              · intro r hrfind
                rw [hfind] at hrfind
                obtain rfl := Option.some.inj hrfind
                dsimp only
                exact le_trans
                  (clamp2_mono (le_trans (min_le_right _ _) (min_le_left _ _)))
                  (le_of_eq (centQ_clamp2_fix (clamp2_centQ _)))
              · dsimp only
                exact le_trans
                  (clamp2_mono (le_trans (min_le_right _ _) (min_le_right _ _)))
                  (le_of_eq (centQ_clamp2_fix (havailQ _)))
              · intro w hw hwQ
                subst hw
                dsimp only
                exact le_trans (clamp2_mono (min_le_left _ _))
                  (le_of_eq (centQ_clamp2_fix hwQ))

/-! ### Collection engine (source: `collectBucket`, `undoCollect` and the
Collect/Undo buttons; collected-state is derived from the week's
`bucket_collections` rows) -/

/-- A `bucket_collections` row for the fixed user. -/
structure BucketCollectionInsert where
  week_start : String
  bucket : String
  amount : ℚ
deriving DecidableEq, Repr

/-- The collected set loaded for a week: buckets having a
`bucket_collections` row for that week. -/
def collectedSetOf (st : List BucketCollectionInsert) (ws b : String) : Bool :=
  st.any fun row => row.week_start = ws && row.bucket = b

/-- `collectBucket(bucket, amount)`: returns without writing when
`amount ≤ 0`, else inserts one row with the rounded amount (auth and
store errors aside). -/
def collectBucket (st : List BucketCollectionInsert) (ws bucket : String)
    (amount : ℚ) : Option (List BucketCollectionInsert) :=
  if amount ≤ 0 then none
  else some (st ++ [⟨ws, bucket, clamp2 amount⟩])

/-- The Collect button for a row: rendered only while the bucket is not
collected (a collected bucket shows Undo instead), disabled unless
`canCollect = r.variance > 0`, and clicking runs
`collectBucket(r.category, r.variance)`. -/
def collectClick (st : List BucketCollectionInsert) (ws : String) (r : Row) :
    Option (List BucketCollectionInsert) :=
  if collectedSetOf st ws r.category then none
  else if 0 < r.variance then collectBucket st ws r.category r.variance
  else none

/-- `undoCollect(bucket)`: deletes every `bucket_collections` row for
(user, week, bucket). -/
def undoCollect (st : List BucketCollectionInsert) (ws bucket : String) :
    List BucketCollectionInsert :=
  st.filter fun row => !(row.week_start = ws && row.bucket = bucket)

/-- **C4.** Collect followed by Undo-collect restores the pre-collect
collectable state: the stored rows return to exactly the pre-collect
rows, hence the collected-set membership and the available-from-bucket
amount return to their original values. -/
theorem collect_then_undo_roundtrip (st : List BucketCollectionInsert)
    (ws : String) (r : Row) (st' : List BucketCollectionInsert)
    (h : collectClick st ws r = some st') :
    undoCollect st' ws r.category = st
    ∧ collectedSetOf (undoCollect st' ws r.category) ws r.category
        = collectedSetOf st ws r.category
    ∧ ∀ (rs : List Row) (b : String),
        availableFromBucket rs
            (fun x => collectedSetOf (undoCollect st' ws r.category) ws x) b
          = availableFromBucket rs (fun x => collectedSetOf st ws x) b := by
  unfold collectClick at h
  by_cases hcol : collectedSetOf st ws r.category = true
  · rw [if_pos hcol] at h
    exact Option.noConfusion h
  rw [if_neg hcol] at h
  by_cases hv : 0 < r.variance
  · rw [if_pos hv] at h
    unfold collectBucket at h
    rw [if_neg (not_le.mpr hv)] at h
    obtain rfl := Option.some.inj h
    have hall : ∀ row ∈ st, ¬(row.week_start = ws ∧ row.bucket = r.category) := by
      intro row hrow hmatch
      apply hcol
      unfold collectedSetOf
      rw [List.any_eq_true]
      exact ⟨row, hrow, by simp [hmatch.1, hmatch.2]⟩
    have hmain : undoCollect (st ++ [⟨ws, r.category, clamp2 r.variance⟩])
        ws r.category = st := by
      unfold undoCollect
      rw [List.filter_append]
      have h1 : st.filter
          (fun row => !(row.week_start = ws && row.bucket = r.category)) = st := by
        rw [List.filter_eq_self]
        intro a ha
        have := hall a ha
        simp only [Bool.not_eq_true']
        rw [Bool.and_eq_false_iff]
        by_cases hws : a.week_start = ws
        · have hb : ¬a.bucket = r.category := fun hb => this ⟨hws, hb⟩
          exact Or.inr (by simp [hb])
        · exact Or.inl (by simp [hws])
      have h2 : ([⟨ws, r.category, clamp2 r.variance⟩] :
          List BucketCollectionInsert).filter
            (fun row => !(row.week_start = ws && row.bucket = r.category)) = [] := by
        simp
      rw [h1, h2, List.append_nil]
    exact ⟨hmain, by rw [hmain], fun rs b => by rw [hmain]⟩
  · rw [if_neg hv] at h
    exact Option.noConfusion h

/-- Witness for C4: collecting variance 10 on an uncollected "save" row
and undoing it restores the empty collection list. -/
theorem collect_then_undo_roundtrip_witness :
    undoCollect [BucketCollectionInsert.mk "2024-01-01" "save" 10]
        "2024-01-01" (Row.mk "save" 10 0 10).category = []
    ∧ collectedSetOf (undoCollect [BucketCollectionInsert.mk "2024-01-01" "save" 10]
          "2024-01-01" (Row.mk "save" 10 0 10).category)
        "2024-01-01" (Row.mk "save" 10 0 10).category
      = collectedSetOf [] "2024-01-01" (Row.mk "save" 10 0 10).category
    ∧ availableFromBucket [Row.mk "save" 10 0 10]
          (fun x => collectedSetOf
            (undoCollect [BucketCollectionInsert.mk "2024-01-01" "save" 10]
              "2024-01-01" (Row.mk "save" 10 0 10).category) "2024-01-01" x) "save"
        = availableFromBucket [Row.mk "save" 10 0 10]
            (fun x => collectedSetOf [] "2024-01-01" x) "save" := by
  have hc : collectClick [] "2024-01-01" (Row.mk "save" 10 0 10)
      = some [BucketCollectionInsert.mk "2024-01-01" "save" 10] := by
    have h10 : clamp2 (10 : ℚ) = 10 := by norm_num [clamp2, jsRound]
    simp [collectClick, collectBucket, collectedSetOf, h10]
  have h := collect_then_undo_roundtrip [] "2024-01-01" (Row.mk "save" 10 0 10)
    [BucketCollectionInsert.mk "2024-01-01" "save" 10] hc
  exact ⟨h.1, h.2.1, h.2.2 [Row.mk "save" 10 0 10] "save"⟩

/-- **C6.** Collect is permitted exactly when the bucket's variance is
positive and it has not been collected this week; a successful collect
inserts exactly one `bucket_collections` row whose amount equals the
current positive variance (cent-quantized, as the aggregator produces
it), and the collected bucket cannot be collected again until undone. -/
theorem collectClick_permitted_iff (st : List BucketCollectionInsert)
    (ws : String) (r : Row) (hvar : centQ r.variance) :
    ((collectClick st ws r).isSome
        ↔ (collectedSetOf st ws r.category = false ∧ 0 < r.variance))
    ∧ ∀ st', collectClick st ws r = some st' →
        st' = st ++ [⟨ws, r.category, r.variance⟩]
        ∧ collectedSetOf st' ws r.category = true
        ∧ ∀ r2 : Row, r2.category = r.category → collectClick st' ws r2 = none := by
  constructor
  · unfold collectClick collectBucket
    by_cases hcol : collectedSetOf st ws r.category = true
    · rw [if_pos hcol]
      simp [hcol]
    · rw [if_neg hcol]
      have hcolf : collectedSetOf st ws r.category = false := by simpa using hcol
      by_cases hv : 0 < r.variance
      · rw [if_pos hv, if_neg (not_le.mpr hv)]
        simp [hcolf, hv]
      · rw [if_neg hv]
        simp [hv]
  · intro st' h
    unfold collectClick at h
    by_cases hcol : collectedSetOf st ws r.category = true
    · rw [if_pos hcol] at h
      exact Option.noConfusion h
    rw [if_neg hcol] at h
    by_cases hv : 0 < r.variance
    · rw [if_pos hv] at h
      unfold collectBucket at h
      rw [if_neg (not_le.mpr hv)] at h
      obtain rfl := Option.some.inj h
      have hcol2 : collectedSetOf
          (st ++ [⟨ws, r.category, clamp2 r.variance⟩]) ws r.category = true := by
        unfold collectedSetOf
        rw [List.any_append]
        simp
      refine ⟨by rw [centQ_clamp2_fix hvar], hcol2, ?_⟩
      intro r2 hr2
      unfold collectClick
      rw [hr2, if_pos hcol2]
    · rw [if_neg hv] at h
      exact Option.noConfusion h

/-- Witness for C6: collecting variance 10 on "save" in an empty week. -/
theorem collectClick_permitted_iff_witness :
    ((collectClick [] "2024-01-01" (Row.mk "save" 10 0 10)).isSome
        ↔ (collectedSetOf [] "2024-01-01" (Row.mk "save" 10 0 10).category = false
            ∧ (0 : ℚ) < (Row.mk "save" 10 0 10).variance))
    ∧ [BucketCollectionInsert.mk "2024-01-01" "save" 10]
        = [] ++ [⟨"2024-01-01", (Row.mk "save" 10 0 10).category,
            (Row.mk "save" 10 0 10).variance⟩]
    ∧ collectedSetOf [BucketCollectionInsert.mk "2024-01-01" "save" 10]
        "2024-01-01" (Row.mk "save" 10 0 10).category = true
    ∧ collectClick [BucketCollectionInsert.mk "2024-01-01" "save" 10]
        "2024-01-01" (Row.mk "save" 10 0 10) = none := by
  have h := collectClick_permitted_iff [] "2024-01-01" (Row.mk "save" 10 0 10)
    ⟨1000, by norm_num⟩
  have hc : collectClick [] "2024-01-01" (Row.mk "save" 10 0 10)
      = some [BucketCollectionInsert.mk "2024-01-01" "save" 10] := by
    have h10 : clamp2 (10 : ℚ) = 10 := by norm_num [clamp2, jsRound]
    simp [collectClick, collectBucket, collectedSetOf, h10]
  have h2 := h.2 [BucketCollectionInsert.mk "2024-01-01" "save" 10] hc
  exact ⟨h.1, h2.1, h2.2.1, h2.2.2 (Row.mk "save" 10 0 10) rfl⟩

/-! ### Goal progress calculator (source: `GoalDonutCard`) -/

namespace GoalDonutCard

/-- `const pct = target <= 0 ? 0 : clamp((current / target) * 100, 0, 100);` -/
def pct (current target : ℚ) : ℚ :=
  if target ≤ 0 then 0 else jsClamp (current / target * 100) 0 100

/-- `const remaining = Math.max(target - current, 0);` -/
def remaining (current target : ℚ) : ℚ := max (target - current) 0

end GoalDonutCard

/-- **C7.** For every goal with current total `c` and target `t`, the
displayed percent is 0 when `t ≤ 0` and otherwise `clamp(c/t*100, 0, 100)`,
and the remaining amount is `max(t - c, 0)`; in particular target 500 with
current 625 yields percent 100 and remaining 0. -/
theorem goalDonutCard_pct_remaining (c t : ℚ) :
    (t ≤ 0 → GoalDonutCard.pct c t = 0)
    ∧ (0 < t → GoalDonutCard.pct c t = max 0 (min 100 (c / t * 100)))
    ∧ GoalDonutCard.remaining c t = max (t - c) 0
    ∧ GoalDonutCard.pct 625 500 = 100
    ∧ GoalDonutCard.remaining 625 500 = 0 := by
  refine ⟨?_, ?_, rfl, ?_, ?_⟩
  · intro h
    unfold GoalDonutCard.pct
    rw [if_pos h]
  · intro h
    unfold GoalDonutCard.pct jsClamp
    rw [if_neg (not_le.mpr h)]
  · unfold GoalDonutCard.pct jsClamp
    norm_num
  · unfold GoalDonutCard.remaining
    norm_num

/-- Witness for C7 at the concrete scenario target 500, current 625. -/
theorem goalDonutCard_pct_remaining_witness :
    GoalDonutCard.pct 625 500 = max 0 (min 100 ((625 : ℚ) / 500 * 100))
    ∧ GoalDonutCard.remaining 625 500 = max ((500 : ℚ) - 625) 0 :=
  ⟨(goalDonutCard_pct_remaining 625 500).2.1 (by norm_num),
   (goalDonutCard_pct_remaining 625 500).2.2.1⟩

/-! ### Secondary tracker classifiers (source: `trackerForRawBucket` on
the Home page and the Savings page, `bucketForCategory` in the
collections library) -/

/-- The four secondary trackers. -/
inductive TrackerBucket where
  | savings
  | student_loans
  | emergency
  | extra_money
deriving DecidableEq, Repr

namespace HomePage

/-- Home page classifier: lowercase, trim, then prefix match. -/
def trackerForRawBucket (raw : String) : TrackerBucket :=
  let x := jsTrim (jsToLower raw)
  if jsStartsWith x "save" then .savings
  else if jsStartsWith x "student loans" then .student_loans
  else if jsStartsWith x "emergency" then .emergency
  else .extra_money

end HomePage

namespace SavingsPage

/-- Savings page classifier: lowercase, trim, then exact match. -/
def trackerForRawBucket (raw : String) : TrackerBucket :=
  let x := jsTrim (jsToLower raw)
  if x = "save" then .savings
  else if x = "student loans" then .student_loans
  else if x = "emergency" then .emergency
  else .extra_money

end SavingsPage

namespace Collections

/-- Collections library classifier: lowercase, then substring match. -/
def bucketForCategory (category : String) : TrackerBucket :=
  let c := jsToLower category
  if jsIncludes c "student" then .student_loans
  else if jsIncludes c "saving" then .savings
  else if jsIncludes c "emerg" then .emergency
  else if jsIncludes c "want" || jsIncludes c "expense" then .extra_money
  else .extra_money

end Collections

/-- **C8 counterexample.** The three classifier implementations do not
compute the same tracker for every label: on "student loans (gift)" the
Home page gives student_loans while the Savings page gives extra_money,
and on "save" the Home page gives savings while the collections library
gives extra_money. -/
theorem trackerClassifiers_disagree :
    HomePage.trackerForRawBucket "student loans (gift)"
        = TrackerBucket.student_loans
    ∧ SavingsPage.trackerForRawBucket "student loans (gift)"
        = TrackerBucket.extra_money
    ∧ HomePage.trackerForRawBucket "save" = TrackerBucket.savings
    ∧ Collections.bucketForCategory "save" = TrackerBucket.extra_money := by
  refine ⟨?_, ?_, ?_, ?_⟩ <;> decide

/-- **C8 (amended).** Each classifier maps every free-text label into the
four trackers and defaults every unmatched label to extra_money; whenever
the Savings page's exact-match classifier returns a non-default tracker,
the Home page's prefix classifier agrees with it; but the three
implementations are not equivalent on all labels. -/
theorem trackerClassifiers_default_and_agree :
    (∀ raw, SavingsPage.trackerForRawBucket raw ≠ TrackerBucket.extra_money →
        HomePage.trackerForRawBucket raw = SavingsPage.trackerForRawBucket raw)
    ∧ (∀ raw, jsStartsWith (jsTrim (jsToLower raw)) "save" = false
          ∧ jsStartsWith (jsTrim (jsToLower raw)) "student loans" = false
          ∧ jsStartsWith (jsTrim (jsToLower raw)) "emergency" = false →
        HomePage.trackerForRawBucket raw = TrackerBucket.extra_money)
    ∧ (∀ raw, jsTrim (jsToLower raw) ≠ "save"
          ∧ jsTrim (jsToLower raw) ≠ "student loans"
          ∧ jsTrim (jsToLower raw) ≠ "emergency" →
        SavingsPage.trackerForRawBucket raw = TrackerBucket.extra_money)
    ∧ (∀ c, jsIncludes (jsToLower c) "student" = false
          ∧ jsIncludes (jsToLower c) "saving" = false
          ∧ jsIncludes (jsToLower c) "emerg" = false →
        Collections.bucketForCategory c = TrackerBucket.extra_money) := by
  refine ⟨?_, ?_, ?_, ?_⟩
  · intro raw h
    unfold SavingsPage.trackerForRawBucket at h ⊢
    unfold HomePage.trackerForRawBucket
    by_cases h1 : jsTrim (jsToLower raw) = "save"
    · rw [h1]
      decide
    rw [if_neg h1] at h ⊢
    by_cases h2 : jsTrim (jsToLower raw) = "student loans"
    · rw [h2]
      decide
    rw [if_neg h2] at h ⊢
    by_cases h3 : jsTrim (jsToLower raw) = "emergency"
    · rw [h3]
      decide
    rw [if_neg h3] at h
    exact absurd rfl h
  · intro raw ⟨h1, h2, h3⟩
    unfold HomePage.trackerForRawBucket
    simp [h1, h2, h3]
  · intro raw ⟨h1, h2, h3⟩
    unfold SavingsPage.trackerForRawBucket
    simp [h1, h2, h3]
  · intro c ⟨h1, h2, h3⟩
    unfold Collections.bucketForCategory
    simp [h1, h2, h3]

/-- Witness for the amended C8 on the canonical label "save" and an
unmatched label "misc". -/
theorem trackerClassifiers_default_and_agree_witness :
    HomePage.trackerForRawBucket "save" = SavingsPage.trackerForRawBucket "save"
    ∧ HomePage.trackerForRawBucket "misc" = TrackerBucket.extra_money
    ∧ SavingsPage.trackerForRawBucket "misc" = TrackerBucket.extra_money
    ∧ Collections.bucketForCategory "misc" = TrackerBucket.extra_money :=
  ⟨trackerClassifiers_default_and_agree.1 "save" (by decide),
   trackerClassifiers_default_and_agree.2.1 "misc" ⟨by decide, by decide, by decide⟩,
   trackerClassifiers_default_and_agree.2.2.1 "misc" ⟨by decide, by decide, by decide⟩,
   trackerClassifiers_default_and_agree.2.2.2 "misc" ⟨by decide, by decide, by decide⟩⟩

/-! ### Add-week validation (source: `addNewWeekFromIncome`,
`rebuildBudgetsForWeek`) -/

/-- A JavaScript number as produced by `Number(incomeInput)`. -/
inductive JSNum where
  | nan
  | posInf
  | negInf
  | fin (q : ℚ)
deriving DecidableEq

/-- `Number.isNaN`. -/
def jsIsNaN : JSNum → Bool
  | .nan => true
  | _ => false

/-- `Number.isFinite`. -/
def jsIsFinite : JSNum → Bool
  | .fin _ => true
  | _ => false

/-- The JS comparison `x <= 0` (false on NaN). -/
def jsLe0 : JSNum → Bool
  | .nan => false
  | .posInf => false
  | .negInf => true
  | .fin q => decide (q ≤ 0)

/-- The persistence steps `rebuildBudgetsForWeek` issues, in order. -/
inductive DbEffect where
  | upsertWeeklyIncome
  | deleteBudgets
  | deleteTransfers
  | insertBudgets
deriving DecidableEq, Repr

/-- `addNewWeekFromIncome`: the guard
`!incomeInput || Number.isNaN(income) || income <= 0` rejects with an
error message; otherwise `rebuildBudgetsForWeek` runs its store writes.
`inputEmpty` models an empty `incomeInput` string, `income` models
`Number(incomeInput)`. -/
def addNewWeekEffects (inputEmpty : Bool) (income : JSNum) : List DbEffect :=
  if inputEmpty || jsIsNaN income || jsLe0 income then []
  else [.upsertWeeklyIncome, .deleteBudgets, .deleteTransfers, .insertBudgets]

/-- **C9 counterexample.** An infinite income (e.g. the input "1e999",
which `Number` parses to Infinity) is non-finite yet passes the guard:
the operation is not rejected and all four store writes are attempted. -/
theorem addNewWeek_infinite_income_persists :
    jsIsFinite JSNum.posInf = false
    ∧ addNewWeekEffects false JSNum.posInf
        = [DbEffect.upsertWeeklyIncome, DbEffect.deleteBudgets,
           DbEffect.deleteTransfers, DbEffect.insertBudgets] := by
  refine ⟨rfl, ?_⟩
  rfl

/-- **C9 (amended).** Every add-week request whose income field is empty,
parses to NaN, or is at most 0 is rejected before any persistence
attempt: no weekly_income, budget, or transfer row is written or deleted.
An infinite income, although non-finite, is not rejected. -/
theorem addNewWeek_rejects_empty_nan_nonpositive (inputEmpty : Bool)
    (income : JSNum)
    (h : inputEmpty = true ∨ jsIsNaN income = true ∨ jsLe0 income = true) :
    addNewWeekEffects inputEmpty income = [] := by
  unfold addNewWeekEffects
  rcases h with h | h | h <;> simp [h]

/-- Witness for the amended C9: income −3 is rejected with no writes. -/
theorem addNewWeek_rejects_witness :
    addNewWeekEffects false (JSNum.fin (-3)) = [] :=
  addNewWeek_rejects_empty_nan_nonpositive false (JSNum.fin (-3))
    (Or.inr (Or.inr (by norm_num [jsLe0])))

/-- **C3 (amended).** A recorded cover-overspend amount is the requested
minimum rounded to 2 decimals: it never exceeds the magnitude of the
target bucket's deficit nor the source availability, and never exceeds
the requested amount when that request is cent-quantized; and no bucket's
availability is ever negative (availability is 0 for a collected or
missing bucket and `max(0, variance)` otherwise). -/
theorem coverOverspend_clamped_availability_nonneg :
    (∀ (rs : List Row) (collected : String → Bool)
        (target fromBucket : String) (want : Option ℚ) (t : TransferInsert),
      coverOverspend rs collected target fromBucket want = some t →
        (∀ r, (rs.find? fun x => x.category = target) = some r →
            t.amount ≤ clamp2 |r.variance|)
        ∧ t.amount ≤ availableFromBucket rs collected t.from_bucket
        ∧ (∀ w, want = some w → centQ w → t.amount ≤ w))
    ∧ ∀ (rs : List Row) (collected : String → Bool) (b : String),
        0 ≤ availableFromBucket rs collected b := by
  constructor
  · exact coverOverspend_amount_le
  · intro rs collected b
    unfold availableFromBucket
    split
    · exact le_refl 0
    · split
      · exact le_refl 0
      · exact le_max_left 0 _

/-- **C3 counterexample.** With target "expenses" in deficit 5, source
"save" with availability 20, and a requested amount of 1.006, the code
records `clamp2(min(1.006, 5, 20)) = 1.01`, which exceeds
`min(requested, deficit magnitude, availability) = 1.006`: the recorded
amount is not always at most that minimum. -/
theorem coverOverspend_exceeds_requested :
    coverOverspend [Row.mk "save" 20 0 20, Row.mk "expenses" 0 5 (-5)]
        (fun _ => false) "expenses" "save" (some (1006/1000))
      = some (TransferInsert.mk "save" "expenses" (101/100))
    ∧ min ((1006 : ℚ)/1000)
        (min (clamp2 |(Row.mk "expenses" 0 5 (-5)).variance|)
          (availableFromBucket
            [Row.mk "save" 20 0 20, Row.mk "expenses" 0 5 (-5)]
            (fun _ => false) "save"))
        < (101 : ℚ)/100 := by
  have htrim : jsTrim "save" = "save" := by decide
  have hc5 : clamp2 (5 : ℚ) = 5 := by norm_num [clamp2, jsRound]
  have hc20 : clamp2 (20 : ℚ) = 20 := by norm_num [clamp2, jsRound]
  have hc1006 : clamp2 ((1006 : ℚ)/1000) = 101/100 := by
    norm_num [clamp2, jsRound]
  have habs : |(-5 : ℚ)| = 5 := by norm_num
  have havail : availableFromBucket
      [Row.mk "save" 20 0 20, Row.mk "expenses" 0 5 (-5)]
      (fun _ => false) "save" = 20 := by
    simp [availableFromBucket, List.find?, hc20]
  constructor
  · simp [coverOverspend, List.find?, htrim, havail, habs, hc5]
    norm_num [min_def, clamp2, jsRound]
  · rw [havail]
    norm_num [habs, hc5, min_def]

/-- Witness for the amended C3: a cent-quantized request of 2 from "save"
to cover "expenses" records exactly 2, within availability and request. -/
theorem coverOverspend_clamped_witness :
    (TransferInsert.mk "save" "expenses" 2).amount
        ≤ availableFromBucket [Row.mk "save" 20 0 20, Row.mk "expenses" 0 5 (-5)]
            (fun _ => false) (TransferInsert.mk "save" "expenses" 2).from_bucket
    ∧ (TransferInsert.mk "save" "expenses" 2).amount ≤ (2 : ℚ)
    ∧ 0 ≤ availableFromBucket [] (fun _ => false) "save" := by
  have htrim : jsTrim "save" = "save" := by decide
  have hc5 : clamp2 (5 : ℚ) = 5 := by norm_num [clamp2, jsRound]
  have hc20 : clamp2 (20 : ℚ) = 20 := by norm_num [clamp2, jsRound]
  have hc2 : clamp2 (2 : ℚ) = 2 := by norm_num [clamp2, jsRound]
  have habs : |(-5 : ℚ)| = 5 := by norm_num
  have havail : availableFromBucket
      [Row.mk "save" 20 0 20, Row.mk "expenses" 0 5 (-5)]
      (fun _ => false) "save" = 20 := by
    simp [availableFromBucket, List.find?, hc20]
  have hcover : coverOverspend
      [Row.mk "save" 20 0 20, Row.mk "expenses" 0 5 (-5)]
      (fun _ => false) "expenses" "save" (some 2)
        = some (TransferInsert.mk "save" "expenses" 2) := by
    simp [coverOverspend, List.find?, htrim, havail, habs, hc5]
    norm_num [min_def, clamp2, jsRound]
  have h := coverOverspend_clamped_availability_nonneg
  exact ⟨(h.1 _ _ _ _ _ _ hcover).2.1,
         (h.1 _ _ _ _ _ _ hcover).2.2 2 rfl ⟨200, by norm_num⟩,
         h.2 [] (fun _ => false) "save"⟩

end BudgetApp
